import Mathlib

/-!
Shallow embedding of `webargs/aiohttpparser.py`: the aiohttp request-argument
parsing adapter of the webargs library.

The module binds the generic webargs parsing core to aiohttp.  We embed:

* the per-request containers of an aiohttp request (query, headers, cookies,
  match_info, form post data, JSON body outcome) as association lists — the
  framework's request object is an external collaborator, so its accessors are
  modelled as fields holding the value the corresponding coroutine/property
  would produce;
* the parser's per-request body cache (`self._cache`, keys `"post"` and
  `"json"`) as an explicit two-field record threaded through the body-reading
  operations, together with a boolean recording whether the framework's
  body-consumption coroutine was awaited during the call;
* the status-code → exception-class table `exception_map` and the reflective
  registration loop `_find_exceptions`, parametrised by the framework's
  exported list of candidate classes and its subclass test (both external
  inputs at process start);
* `handle_error`, `parse_files` and `get_request_from_view_args`, with raised
  exceptions embedded as explicit outcome constructors.

Helpers that live in `webargs/core.py` (not part of the sources given) are
modelled from the specification and carry a doc comment saying so.
-/

namespace Aiohttpparser

/-- Values held by the request's key-value containers.  HTTP query strings,
headers, cookies, path-match parameters and url-encoded form fields carry
string values; the structure of JSON values is opaque to this module (it only
hands them to the core helper), so JSON objects are modelled with string
values as well. -/
abbrev Val := String

/-- Marker for the marshmallow field object each `parse_*` method receives and
forwards to the core helper.  Its content is never inspected by this module. -/
structure Field where
deriving DecidableEq, Inhabited, Repr

/-- Python's `json.JSONDecodeError`, as far as this module inspects it:
`parse_json` reads only the `doc` attribute (the document that failed to
parse). -/
structure JsonDecodeError where
  doc : String
deriving DecidableEq, Repr

/-- A decoded JSON document at the granularity this module distinguishes:
`null` is the Python `None` produced by decoding the body `null`, which the
cache-miss test `self._cache.get("json") is None` cannot tell apart from an
absent cache key; every other decoded value is only handed on to the core
helper and is modelled as an association list (see `Val`). -/
inductive JsonData where
  | null : JsonData
  | obj (data : List (String × Val)) : JsonData
deriving DecidableEq, Repr

/-- Outcome of awaiting the framework's `req.json()` coroutine: either a
decoded JSON document (possibly the decoded `null`) or a raised
`json.JSONDecodeError`. -/
inductive JsonOutcome where
  | ok (data : JsonData) : JsonOutcome
  | error (e : JsonDecodeError) : JsonOutcome
deriving DecidableEq, Repr

/-- The aiohttp request object, restricted to what this module reads.
`postData` is the value `await req.post()` would produce and `jsonResult` the
outcome `await req.json()` would produce; one request always answers these the
same way, and awaiting them is recorded by the callers. -/
structure Request where
  query : List (String × Val)
  headers : List (String × Val)
  cookies : List (String × Val)
  match_info : List (String × Val)
  content_type : String
  body_exists : Bool
  postData : List (String × Val)
  jsonResult : JsonOutcome
deriving DecidableEq, Repr

/-- The parser's per-request body cache `self._cache`, holding the memoised
results under the keys `"post"` and `"json"`.  `none` means the key is
absent; for the `"json"` key the stored value may itself be
`JsonData.null` — the decoded JSON `null`, a Python `None` that the source's
`self._cache.get("json") is None` miss test conflates with an absent key. -/
structure Cache where
  post : Option (List (String × Val))
  json : Option JsonData
deriving DecidableEq, Repr

/-- The empty cache a fresh request starts from. -/
def Cache.empty : Cache := ⟨none, none⟩

/-- Modelled from the spec: `core.get_value`, the generic "extract named field
from a key-value container" helper supplied by the shared parsing core
(`webargs/core.py` is not among the given sources).  It returns the raw value
stored under the key when the key is present and the missing-value sentinel
otherwise; the sentinel is embedded as `Option.none`.  The `field` argument
(and the `allow_many_nested` flag of the JSON call site) only influence
behaviour inside the core library, which the spec describes no further, so
they are ignored here. -/
def get_value (container : List (String × Val)) (name : String)
    (_field : Field) : Option Val :=
  container.lookup name

/-- Modelled from the spec: `core.get_value` applied to a decoded JSON
document, as the JSON call site does.  On a key-value container it is the
lookup above; on the decoded JSON `null` (a Python `None`, not a key-value
container) it yields the missing sentinel, the only outcome the spec's
"extract named field from a key-value container" reading leaves for data
holding no fields. -/
def get_value_json (data : JsonData) (name : String) (field : Field) :
    Option Val :=
  match data with
  | .null => none
  | .obj container => get_value container name field

/-- Modelled from the spec: `core.is_json` from the shared parsing core —
whether a content type is a JSON content type. -/
def core_is_json (content_type : String) : Bool :=
  content_type == "application/json"

/-- Modelled from the spec: `core.Parser.DEFAULT_VALIDATION_STATUS`, the
status code used when the caller supplies none — per the spec, an
unprocessable-entity code. -/
def DEFAULT_VALIDATION_STATUS : Nat := 422

/-- Module-level `is_json_request`: whether the request's content type is a
JSON content type according to the core helper. -/
def is_json_request (req : Request) : Bool :=
  core_is_json req.content_type

/-- A framework exception class as `_find_exceptions` inspects it: its name in
`web_exceptions.__all__`, whether it is a class deriving `HTTPException`
(`False` also covers exported objects that are not classes at all, where
`issubclass` raises `TypeError`), and its declared `status_code` attribute. -/
structure ExcClass where
  name : String
  isHTTPException : Bool
  status_code : Option Nat
deriving DecidableEq, Repr

/-- The module-level class `HTTPUnprocessableEntity(web.HTTPClientError)` with
`status_code = 422`. -/
def HTTPUnprocessableEntity : ExcClass :=
  { name := "HTTPUnprocessableEntity", isHTTPException := true,
    status_code := some 422 }

/-- The initial value of the module-level dict
`exception_map = {422: HTTPUnprocessableEntity}`, before `_find_exceptions`
runs.  The table is embedded as a function from status codes to optional
classes. -/
def exception_map_init : Nat → Option ExcClass :=
  fun c => if c = 422 then some HTTPUnprocessableEntity else none

/-- One iteration of the `for name in web_exceptions.__all__` loop of
`_find_exceptions`, processing the object `obj` against the current table:
skip non-HTTPException objects and classes with `status_code is None`; skip a
class that is a subclass of the class already registered for its status code;
otherwise register it.  `issub` is the framework's `issubclass` test,
an external input. -/
def find_exceptions_step (issub : ExcClass → ExcClass → Bool)
    (m : Nat → Option ExcClass) (obj : ExcClass) : Nat → Option ExcClass :=
  if ¬ obj.isHTTPException then m
  else
    match obj.status_code with
    | none => m
    | some code =>
      match m code with
      | some old_obj =>
          if issub obj old_obj then m
          else fun c => if c = code then some obj else m c
      | none => fun c => if c = code then some obj else m c

/-- Function `_find_exceptions` run to completion at import time: fold the loop body
over the framework's exported list, starting from the initial table.  The
result is the module-level `exception_map` used by `handle_error`. -/
def find_exceptions (issub : ExcClass → ExcClass → Bool)
    (exported : List ExcClass) : Nat → Option ExcClass :=
  exported.foldl (find_exceptions_step issub) exception_map_init

/-- Result of a body-reading `parse_*` call: the value handed back to the
caller (`Except` for a re-raised decode error, `Option` for the missing
sentinel), the cache after the call, and whether the framework's
body-consumption coroutine was awaited during the call. -/
structure BodyParse where
  result : Except JsonDecodeError (Option Val)
  cache : Cache
  awaited : Bool

/-- Method `AIOHTTPParser.parse_querystring`: pull a querystring value from the
request.  Purely a core-helper lookup on `req.query`; the cache is untouched,
which the explicit state-passing makes visible by returning it unchanged. -/
def parse_querystring (c : Cache) (req : Request) (name : String)
    (field : Field) : Option Val × Cache :=
  (get_value req.query name field, c)

/-- Method `AIOHTTPParser.parse_headers`: pull a value from the header data. -/
def parse_headers (c : Cache) (req : Request) (name : String)
    (field : Field) : Option Val × Cache :=
  (get_value req.headers name field, c)

/-- Method `AIOHTTPParser.parse_cookies`: pull a value from the cookiejar. -/
def parse_cookies (c : Cache) (req : Request) (name : String)
    (field : Field) : Option Val × Cache :=
  (get_value req.cookies name field, c)

/-- Method `AIOHTTPParser.parse_match_info`: pull a value from the request's
`match_info`. -/
def parse_match_info (c : Cache) (req : Request) (name : String)
    (field : Field) : Option Val × Cache :=
  (get_value req.match_info name field, c)

/-- Method `AIOHTTPParser.parse_form`: check the `"post"` cache key; when absent,
await `req.post()` and memoise it; hand the memoised container to the core
helper. -/
def parse_form (c : Cache) (req : Request) (name : String)
    (field : Field) : BodyParse :=
  match c.post with
  | some post_data => ⟨.ok (get_value post_data name field), c, false⟩
  | none =>
      let post_data := req.postData
      ⟨.ok (get_value post_data name field),
        { c with post := some post_data }, true⟩

/-- Method `AIOHTTPParser.parse_json`: read `self._cache.get("json")`, which
is the Python `None` both when the key is absent and when the cached decode
produced the JSON `null` — `Option.getD JsonData.null` renders that `.get`.
When the read value `is None`: return the missing sentinel if the body does
not exist or the content type is not JSON; otherwise await `req.json()`,
converting a decode error whose `doc` is the empty string into the missing
sentinel, re-raising any other decode error, and storing a successful decode
(even a decoded `null`) in the cache before handing it to the core helper.
Otherwise answer from the memoised data without awaiting. -/
def parse_json (c : Cache) (req : Request) (name : String)
    (field : Field) : BodyParse :=
  match c.json.getD JsonData.null with
  | .obj json_data => ⟨.ok (get_value json_data name field), c, false⟩
  | .null =>
      if ¬ (req.body_exists && is_json_request req) then
        ⟨.ok none, c, false⟩
      else
        match req.jsonResult with
        | .error e =>
            if e.doc = "" then ⟨.ok none, c, true⟩
            else ⟨.error e, c, true⟩
        | .ok json_data =>
            ⟨.ok (get_value_json json_data name field),
              { c with json := some json_data }, true⟩

/-- Outcome of `AIOHTTPParser.parse_files`: the method body is a single
unconditional `raise NotImplementedError(...)`. -/
inductive FilesOutcome where
  | raiseNotImplementedError (msg : String) : FilesOutcome
  | value (v : Option Val) : FilesOutcome
deriving DecidableEq, Repr

/-- Method `AIOHTTPParser.parse_files`. -/
def parse_files (_c : Cache) (_req : Request) (_name : String)
    (_field : Field) : FilesOutcome :=
  .raiseNotImplementedError
    ("parse_files is not implemented. You may be able to use parse_form for " ++
      "parsing upload data.")

/-- A positional argument of a decorated handler, as
`get_request_from_view_args` classifies it: a `web.Request`, a `web.View`
(carrying whatever its `request` attribute is — `some r` when that attribute
is a `web.Request`, `none` otherwise), or anything else. -/
inductive HandlerArg where
  | request (r : Request) : HandlerArg
  | view (reqAttr : Option Request) : HandlerArg
  | other : HandlerArg
deriving DecidableEq, Repr

/-- The `for arg in args` loop of `get_request_from_view_args`: `req` ends up
as the first `Request` argument, or the `request` attribute of the first
`View` argument, whichever comes first; `none` when the loop leaves
`req = None` or the chosen `View`'s attribute is not a `Request`. -/
def scan_view_args : List HandlerArg → Option Request
  | [] => none
  | .request r :: _ => some r
  | .view (some r) :: _ => some r
  | .view none :: _ => none
  | .other :: rest => scan_view_args rest

/-- Outcome of `AIOHTTPParser.get_request_from_view_args`: either the request
found among the positional arguments, or the failure of the final
`assert isinstance(req, web.Request)`. -/
inductive GetRequestOutcome where
  | found (r : Request) : GetRequestOutcome
  | raiseAssertionError (msg : String) : GetRequestOutcome
deriving DecidableEq, Repr

/-- Method `AIOHTTPParser.get_request_from_view_args`: scan the positional
arguments and assert that a `web.Request` was found. -/
def get_request_from_view_args (args : List HandlerArg) : GetRequestOutcome :=
  match scan_view_args args with
  | some r => .found r
  | none => .raiseAssertionError "Request argument not found for handler"

/-- The structured messages of a marshmallow `ValidationError`: a mapping from
field name to a list of error-message strings, per the spec's
`{"field": ["error message", ...], ...}`. -/
abbrev Messages := List (String × List String)

/-- A validation failure as `handle_error` reads it: its `.messages`. -/
structure ValidationError where
  messages : Messages
deriving DecidableEq, Repr

/-- Python's `json.dumps` (standard library, external collaborator) on the
message mapping shape, with default separators; message strings are assumed to
need no escaping, which the claims never depend on. -/
def json_dumps_list (l : List String) : String :=
  "[" ++ String.intercalate ", " (l.map fun s => "\"" ++ s ++ "\"") ++ "]"

/-- Python's `json.dumps` on the full messages mapping. -/
def json_dumps (msgs : Messages) : String :=
  "\x7b" ++
    String.intercalate ", "
      (msgs.map fun p => "\"" ++ p.1 ++ "\": " ++ json_dumps_list p.2) ++
    "\x7d"

/-- Python's `str.encode("utf-8")`: the UTF-8 bytes of a string. -/
def utf8Encode (s : String) : List UInt8 :=
  s.data.flatMap String.utf8EncodeChar

/-- Python's `x or y` on the optional status-code argument: `y` when `x` is
`None` (or the falsy integer `0`), `x` otherwise. -/
def pyOrNat (x : Option Nat) (y : Nat) : Nat :=
  match x with
  | none => y
  | some n => if n = 0 then y else n

/-- A raised framework HTTP exception as `handle_error` constructs it:
`error_class(body=..., headers=..., content_type=...)`. -/
structure RaisedHTTPError where
  cls : ExcClass
  body : List UInt8
  headers : Option (List (String × String))
  content_type : String
deriving DecidableEq, Repr

/-- Outcome of `AIOHTTPParser.handle_error`, which never returns normally: it
raises either the looked-up framework exception class or a `LookupError` when
the table has no class for the code. -/
inductive HandleErrorOutcome where
  | raiseLookupError : HandleErrorOutcome
  | raiseHTTPError (e : RaisedHTTPError) : HandleErrorOutcome
deriving DecidableEq, Repr

/-- Method `AIOHTTPParser.handle_error`: look up
`exception_map.get(error_status_code or self.DEFAULT_VALIDATION_STATUS)`;
raise `LookupError` when nothing is registered; otherwise raise the registered
class with the UTF-8 encoded JSON dump of the failure's messages as body,
the given headers, and content type `application/json`.  The table is the
module-level `exception_map`, passed explicitly. -/
def handle_error (exception_map : Nat → Option ExcClass)
    (error : ValidationError) (error_status_code : Option Nat)
    (error_headers : Option (List (String × String))) : HandleErrorOutcome :=
  match exception_map (pyOrNat error_status_code DEFAULT_VALIDATION_STATUS) with
  | none => .raiseLookupError
  | some error_class =>
      .raiseHTTPError
        { cls := error_class,
          body := utf8Encode (json_dumps error.messages),
          headers := error_headers,
          content_type := "application/json" }

/-- A body-reading operation performed while handling one request: a
form-location or JSON-location field extraction, as issued by the core parser
for each declared field. -/
inductive BodyOp where
  | form (name : String) (field : Field) : BodyOp
  | json (name : String) (field : Field) : BodyOp
deriving DecidableEq, Repr

/-- Whether a body operation is a JSON-location extraction. -/
def BodyOp.isJson : BodyOp → Bool
  | .json _ _ => true
  | .form _ _ => false

/-- Run one body operation against the cache, keeping the new cache and
whether the framework coroutine was awaited. -/
def stepBodyOp (req : Request) (c : Cache) : BodyOp → Cache × Bool
  | .form name field => let r := parse_form c req name field; (r.cache, r.awaited)
  | .json name field => let r := parse_json c req name field; (r.cache, r.awaited)

/-- Run a sequence of body operations for one request, threading the cache,
and record for each operation whether it awaited the framework coroutine. -/
def runBodyOps (req : Request) : Cache → List BodyOp → List (BodyOp × Bool)
  | _, [] => []
  | c, op :: ops =>
      let s := stepBodyOp req c op
      (op, s.2) :: runBodyOps req s.1 ops

/-- Concrete request used to exercise the definitions on closed inputs. -/
def sampleReq : Request :=
  { query := [("q", "1")], headers := [("h", "2")], cookies := [("c", "3")],
    match_info := [("m", "4")], content_type := "application/json",
    body_exists := true, postData := [("f", "5")],
    jsonResult := .ok (.obj [("j", "6")]) }

/-- Concrete request whose body does not exist. -/
def sampleReqNoBody : Request :=
  { sampleReq with body_exists := false }

/-- Concrete request carrying a JSON body that fails to decode with a
non-empty document. -/
def sampleReqBadJson : Request :=
  { sampleReq with jsonResult := .error ⟨"not json"⟩ }

/-- Concrete request whose JSON body is the document `null`. -/
def sampleReqNullBody : Request :=
  { sampleReq with jsonResult := .ok .null }

/-- Concrete cache in which both body reads have already been memoised with
non-null data. -/
def sampleCacheFull : Cache :=
  ⟨some [("f", "5")], some (.obj [("j", "6")])⟩

/-- Concrete body-operation sequence touching both locations. -/
def sampleOps : List BodyOp :=
  [BodyOp.json "j" {}, BodyOp.form "f" {}, BodyOp.json "x" {}]

/-- Concrete framework class with status code 404, for exercising
`find_exceptions` on closed inputs. -/
def sampleHTTPNotFound : ExcClass :=
  { name := "HTTPNotFound", isHTTPException := true, status_code := some 404 }

/-- Concrete validation failure with one field message. -/
def sampleError : ValidationError :=
  ⟨[("name", ["Missing data for required field."])]⟩

/-- Concrete framework class standing for a subclass of
`HTTPUnprocessableEntity` with the same status code. -/
def sampleSubclass422 : ExcClass :=
  { name := "HTTPUnprocessableEntitySubclass", isHTTPException := true,
    status_code := some 422 }

/-- Concrete request found among handler arguments. -/
def sampleReq2 : Request :=
  { sampleReq with content_type := "text/plain" }

/-- Consistency of the status-code table: every registered value is an HTTP
exception class, and it declares the status code it is registered under. -/
def table_consistent (m : Nat → Option ExcClass) : Prop :=
  ∀ code obj, m code = some obj →
    obj.isHTTPException = true ∧ obj.status_code = some code

end Aiohttpparser

namespace Aiohttpparser

/-- Helper: the core lookup finds the first pair whose key matches, skipping a
prefix of non-matching keys. -/
theorem get_value_mem (name : String) (field : Field) (v : Val)
    (pre post : List (String × Val)) (hpre : ∀ p ∈ pre, p.1 ≠ name) :
    get_value (pre ++ (name, v) :: post) name field = some v := by
  induction pre with
  | nil => simp [get_value, List.lookup]
  | cons a pre ih =>
      have ha : a.1 ≠ name := hpre a (List.mem_cons_self a pre)
      have hne : (name == a.1) = false := by
        simp [BEq.beq]
        exact fun h => (ha h.symm).elim
      simp only [List.cons_append, get_value, List.lookup, hne]
      exact ih fun p hp => hpre p (List.mem_cons_of_mem a hp)

/-- Helper: the core lookup yields the missing sentinel when no key
matches. -/
theorem get_value_not_mem (name : String) (field : Field)
    (container : List (String × Val)) (h : ∀ p ∈ container, p.1 ≠ name) :
    get_value container name field = none := by
  induction container with
  | nil => rfl
  | cons a l ih =>
      have ha : a.1 ≠ name := h a (List.mem_cons_self a l)
      have hne : (name == a.1) = false := by
        simp [BEq.beq]
        exact fun hh => (ha hh.symm).elim
      simp only [get_value, List.lookup, hne]
      exact ih fun p hp => h p (List.mem_cons_of_mem a hp)

/-- Claim C7: each of the querystring, header, cookie and match-info
extractions returns exactly the core helper's result on the corresponding
container of the request, leaving the cache (and the request, which is never
mutated) unchanged; and the core helper returns the first value stored under
the key when it is present and the missing sentinel when it is absent. -/
theorem simple_locations_delegate_to_core
    (c : Cache) (req : Request) (name : String) (field : Field) :
    parse_querystring c req name field = (get_value req.query name field, c) ∧
    parse_headers c req name field = (get_value req.headers name field, c) ∧
    parse_cookies c req name field = (get_value req.cookies name field, c) ∧
    parse_match_info c req name field = (get_value req.match_info name field, c) ∧
    (∀ (v : Val) (pre post : List (String × Val)), (∀ p ∈ pre, p.1 ≠ name) →
        get_value (pre ++ (name, v) :: post) name field = some v) ∧
    (∀ container : List (String × Val), (∀ p ∈ container, p.1 ≠ name) →
        get_value container name field = none) :=
  ⟨rfl, rfl, rfl, rfl,
    fun v pre post hpre => get_value_mem name field v pre post hpre,
    fun container h => get_value_not_mem name field container h⟩

/-- Witness for C7 at concrete inputs. -/
theorem simple_locations_delegate_to_core_witness :
    parse_querystring Cache.empty sampleReq "q" {} = (some "1", Cache.empty) ∧
    parse_headers Cache.empty sampleReq "h" {} = (some "2", Cache.empty) ∧
    parse_cookies Cache.empty sampleReq "zzz" {} = (none, Cache.empty) ∧
    parse_match_info Cache.empty sampleReq "m" {} = (some "4", Cache.empty) ∧
    get_value ([("a", "0")] ++ ("k", "7") :: []) "k" {} = some "7" := by
  refine ⟨?_, ?_, ?_, ?_, ?_⟩
  · rw [(simple_locations_delegate_to_core Cache.empty sampleReq "q" {}).1]
    decide
  · rw [(simple_locations_delegate_to_core Cache.empty sampleReq "h" {}).2.1]
    decide
  · rw [(simple_locations_delegate_to_core Cache.empty sampleReq "zzz" {}).2.2.1]
    decide
  · rw [(simple_locations_delegate_to_core Cache.empty sampleReq "m" {}).2.2.2.1]
    decide
  · exact (simple_locations_delegate_to_core Cache.empty sampleReq "k"
      {}).2.2.2.2.1 "7" [("a", "0")] [] (by decide)

/-- Claim C6: `parse_files` unconditionally raises `NotImplementedError` and
never produces a value or the missing sentinel. -/
theorem parse_files_always_raises
    (c : Cache) (req : Request) (name : String) (field : Field) :
    parse_files c req name field =
      .raiseNotImplementedError
        ("parse_files is not implemented. You may be able to use parse_form " ++
          "for parsing upload data.") ∧
    ∀ v : Option Val, parse_files c req name field ≠ .value v :=
  ⟨rfl, fun _ h => FilesOutcome.noConfusion h⟩

/-- Claim C1: for every validation failure, target status code and optional
headers, when the status-code table registers a class for the resolved code
(the unprocessable-entity default 422 when no code is given), `handle_error`
raises exactly that class, with body the UTF-8 encoding of the JSON dump of
the failure's structured messages and content type `application/json`. -/
theorem handle_error_raises_registered_class
    (m : Nat → Option ExcClass) (error : ValidationError)
    (esc : Option Nat) (hdrs : Option (List (String × String)))
    (cls : ExcClass)
    (h : m (pyOrNat esc DEFAULT_VALIDATION_STATUS) = some cls) :
    handle_error m error esc hdrs =
      .raiseHTTPError
        { cls := cls,
          body := utf8Encode (json_dumps error.messages),
          headers := hdrs,
          content_type := "application/json" } ∧
    pyOrNat (none : Option Nat) DEFAULT_VALIDATION_STATUS = 422 := by
  constructor
  · unfold handle_error
    rw [h]
  · rfl

/-- Witness for C1: the initial table registers `HTTPUnprocessableEntity`
for the default code, and `handle_error` raises it with the encoded body. -/
theorem handle_error_raises_registered_class_witness :
    exception_map_init (pyOrNat none DEFAULT_VALIDATION_STATUS) =
      some HTTPUnprocessableEntity ∧
    (handle_error exception_map_init sampleError none none =
      .raiseHTTPError
        { cls := HTTPUnprocessableEntity,
          body := utf8Encode (json_dumps sampleError.messages),
          headers := none,
          content_type := "application/json" } ∧
      pyOrNat (none : Option Nat) DEFAULT_VALIDATION_STATUS = 422) :=
  ⟨rfl, handle_error_raises_registered_class exception_map_init sampleError
    none none HTTPUnprocessableEntity rfl⟩

/-- Claim C4: when the status-code table registers no class for the resolved
code, `handle_error` raises a `LookupError` — a hard failure distinct from
every normal validation-error response. -/
theorem handle_error_unregistered_code_is_hard_failure
    (m : Nat → Option ExcClass) (error : ValidationError)
    (esc : Option Nat) (hdrs : Option (List (String × String)))
    (h : m (pyOrNat esc DEFAULT_VALIDATION_STATUS) = none) :
    handle_error m error esc hdrs = .raiseLookupError ∧
    ∀ e : RaisedHTTPError, handle_error m error esc hdrs ≠ .raiseHTTPError e := by
  have heq : handle_error m error esc hdrs = .raiseLookupError := by
    unfold handle_error
    rw [h]
  exact ⟨heq, fun e hcontra => by rw [heq] at hcontra; exact
    HandleErrorOutcome.noConfusion hcontra⟩

/-- Witness for C4: a table with no entries makes `handle_error` raise
`LookupError`. -/
theorem handle_error_unregistered_code_is_hard_failure_witness :
    (fun _ : Nat => (none : Option ExcClass))
        (pyOrNat (some 500) DEFAULT_VALIDATION_STATUS) = none ∧
    (handle_error (fun _ => none) sampleError (some 500) none =
        .raiseLookupError ∧
      ∀ e : RaisedHTTPError,
        handle_error (fun _ => none) sampleError (some 500) none ≠
          .raiseHTTPError e) :=
  ⟨rfl, handle_error_unregistered_code_is_hard_failure
    (fun _ => none) sampleError (some 500) none rfl⟩

/-- Claim C3: with no memoised JSON yet, a request whose body is empty —
manifested to this module either as `body_exists` being false or as the
decoder failing on the empty document — or whose content type is not a JSON
content type makes `parse_json` return the missing sentinel for every field
name, raising no decode error and leaving the cache unchanged. -/
theorem parse_json_missing_on_empty_or_nonjson
    (c : Cache) (req : Request) (name : String) (field : Field)
    (hc : c.json = none)
    (h : req.body_exists = false ∨ req.jsonResult = .error ⟨""⟩ ∨
      is_json_request req = false) :
    (parse_json c req name field).result = .ok none ∧
    (parse_json c req name field).cache = c := by
  rcases h with h | h | h
  · simp [parse_json, hc, h]
  · by_cases hb : (req.body_exists && is_json_request req) = true
    · simp [parse_json, hc, hb, h]
    · simp [parse_json, hc, hb]
  · simp [parse_json, hc, h]

/-- Witness for C3: a request without a body yields the missing sentinel. -/
theorem parse_json_missing_on_empty_or_nonjson_witness :
    Cache.empty.json = none ∧
    (sampleReqNoBody.body_exists = false ∨
      sampleReqNoBody.jsonResult = .error ⟨""⟩ ∨
      is_json_request sampleReqNoBody = false) ∧
    ((parse_json Cache.empty sampleReqNoBody "j" {}).result = .ok none ∧
      (parse_json Cache.empty sampleReqNoBody "j" {}).cache = Cache.empty) :=
  ⟨rfl, Or.inl rfl,
    parse_json_missing_on_empty_or_nonjson Cache.empty sampleReqNoBody "j" {}
      rfl (Or.inl rfl)⟩

/-- Claim C8: with no memoised JSON yet, a request whose body exists, has a
JSON content type, and fails to decode with a non-empty document makes
`parse_json` re-raise the decode error after awaiting the decoder; only the
empty-document failure is converted to the missing sentinel. -/
theorem parse_json_reraises_decode_error
    (c : Cache) (req : Request) (name : String) (field : Field)
    (e : JsonDecodeError) (hc : c.json = none)
    (hb : req.body_exists = true) (hj : is_json_request req = true)
    (he : req.jsonResult = .error e) (hd : e.doc ≠ "") :
    (parse_json c req name field).result = .error e ∧
    (parse_json c req name field).awaited = true := by
  simp [parse_json, hc, hb, hj, he, hd]

/-- Witness for C8: a malformed non-empty JSON body re-raises its decode
error. -/
theorem parse_json_reraises_decode_error_witness :
    Cache.empty.json = none ∧
    sampleReqBadJson.body_exists = true ∧
    is_json_request sampleReqBadJson = true ∧
    sampleReqBadJson.jsonResult = .error ⟨"not json"⟩ ∧
    ("not json" : String) ≠ "" ∧
    ((parse_json Cache.empty sampleReqBadJson "j" {}).result =
        .error ⟨"not json"⟩ ∧
      (parse_json Cache.empty sampleReqBadJson "j" {}).awaited = true) :=
  ⟨rfl, rfl, by decide, rfl, by decide,
    parse_json_reraises_decode_error Cache.empty sampleReqBadJson "j" {}
      ⟨"not json"⟩ rfl rfl (by decide) rfl (by decide)⟩

/-- Helper: with non-null JSON data memoised, `parse_json` answers from the
memo: no await, cache unchanged, value from the core helper on the memoised
data. -/
theorem parse_json_memo (c : Cache) (req : Request) (name : String)
    (field : Field) (d : List (String × Val))
    (h : c.json = some (JsonData.obj d)) :
    parse_json c req name field = ⟨.ok (get_value d name field), c, false⟩ := by
  unfold parse_json
  rw [h]
  rfl

/-- Helper: with the form body memoised, `parse_form` answers from the memo. -/
theorem parse_form_memo (c : Cache) (req : Request) (name : String)
    (field : Field) (p : List (String × Val)) (h : c.post = some p) :
    parse_form c req name field = ⟨.ok (get_value p name field), c, false⟩ := by
  unfold parse_form
  rw [h]

/-- Helper: `parse_form` never touches the `"json"` cache entry. -/
theorem parse_form_cache_json (c : Cache) (req : Request) (name : String)
    (field : Field) : (parse_form c req name field).cache.json = c.json := by
  unfold parse_form
  split <;> rfl

/-- Helper: `parse_json` never touches the `"post"` cache entry. -/
theorem parse_json_cache_post (c : Cache) (req : Request) (name : String)
    (field : Field) : (parse_json c req name field).cache.post = c.post := by
  unfold parse_json
  split
  · rfl
  · split
    · rfl
    · split
      · split <;> rfl
      · rfl

/-- Helper: memoised non-null JSON data stays memoised across any body
operation. -/
theorem stepBodyOp_json_mono (req : Request) (c : Cache) (op : BodyOp)
    (d : List (String × Val)) (h : c.json = some (JsonData.obj d)) :
    ((stepBodyOp req c op).1).json = some (JsonData.obj d) := by
  cases op with
  | form name field =>
      show (parse_form c req name field).cache.json = some (JsonData.obj d)
      rw [parse_form_cache_json, h]
  | json name field =>
      show (parse_json c req name field).cache.json = some (JsonData.obj d)
      rw [parse_json_memo c req name field d h, h]

/-- Helper: a memoised form body stays memoised across any body operation. -/
theorem stepBodyOp_post_mono (req : Request) (c : Cache) (op : BodyOp)
    (p : List (String × Val)) (h : c.post = some p) :
    ((stepBodyOp req c op).1).post = some p := by
  cases op with
  | form name field =>
      show (parse_form c req name field).cache.post = some p
      rw [parse_form_memo c req name field p h, h]
  | json name field =>
      show (parse_json c req name field).cache.post = some p
      rw [parse_json_cache_post, h]

/-- Helper: from a cache with non-null JSON data memoised, no operation of a
run awaits the JSON-returning coroutine. -/
theorem runBodyOps_json_no_await (req : Request) (ops : List BodyOp) :
    ∀ (c : Cache) (d : List (String × Val)), c.json = some (JsonData.obj d) →
      ∀ op b, (op, b) ∈ runBodyOps req c ops → op.isJson = true → b = false := by
  induction ops with
  | nil =>
      intro c d _ op b hmem _
      simp [runBodyOps] at hmem
  | cons o ops ih =>
      intro c d h op b hmem hjson
      simp only [runBodyOps, List.mem_cons, Prod.mk.injEq] at hmem
      rcases hmem with ⟨hop, hb⟩ | hmem
      · subst hop
        subst hb
        cases op with
        | form name field => simp [BodyOp.isJson] at hjson
        | json name field =>
            show (parse_json c req name field).awaited = false
            rw [parse_json_memo c req name field d h]
      · exact ih _ d (stepBodyOp_json_mono req c o d h) op b hmem hjson

/-- Helper: from a cache with the form body memoised, no operation of a run
awaits the form-returning coroutine. -/
theorem runBodyOps_form_no_await (req : Request) (ops : List BodyOp) :
    ∀ (c : Cache) (p : List (String × Val)), c.post = some p →
      ∀ op b, (op, b) ∈ runBodyOps req c ops → op.isJson = false → b = false := by
  induction ops with
  | nil =>
      intro c p _ op b hmem _
      simp [runBodyOps] at hmem
  | cons o ops ih =>
      intro c p h op b hmem hform
      simp only [runBodyOps, List.mem_cons, Prod.mk.injEq] at hmem
      rcases hmem with ⟨hop, hb⟩ | hmem
      · subst hop
        subst hb
        cases op with
        | json name field => simp [BodyOp.isJson] at hform
        | form name field =>
            show (parse_form c req name field).awaited = false
            rw [parse_form_memo c req name field p h]
      · exact ih _ p (stepBodyOp_post_mono req c o p h) op b hmem hform

/-- Claim C2, amended after the counterexample below: the form body is read
at most once — once the form memo is filled, every later form extraction in
any operation sequence is answered from the memo without awaiting — and JSON
extractions are answered from the memo without further awaits once a
successful read has decoded a non-null document (the memo holding
`JsonData.obj` data).  A body decoding to the JSON `null` is cached as the
Python `None`, which the `is None` miss test conflates with an absent cache
key, so that one successful read is re-awaited on every later JSON
extraction. -/
theorem body_stream_consumed_once (req : Request) (c : Cache)
    (ops : List BodyOp) :
    (∀ d : List (String × Val), c.json = some (JsonData.obj d) →
      (∀ op b, (op, b) ∈ runBodyOps req c ops → op.isJson = true →
        b = false) ∧
      ∀ name field, parse_json c req name field =
        ⟨.ok (get_value d name field), c, false⟩) ∧
    (∀ p : List (String × Val), c.post = some p →
      (∀ op b, (op, b) ∈ runBodyOps req c ops → op.isJson = false →
        b = false) ∧
      ∀ name field, parse_form c req name field =
        ⟨.ok (get_value p name field), c, false⟩) :=
  ⟨fun d h =>
    ⟨runBodyOps_json_no_await req ops c d h,
      fun name field => parse_json_memo c req name field d h⟩,
    fun p h =>
    ⟨runBodyOps_form_no_await req ops c p h,
      fun name field => parse_form_memo c req name field p h⟩⟩

/-- Witness for C2: with both memo entries filled with non-null data, a
concrete run of three body operations performs no await at all. -/
theorem body_stream_consumed_once_witness :
    sampleCacheFull.json = some (JsonData.obj [("j", "6")]) ∧
    sampleCacheFull.post = some [("f", "5")] ∧
    runBodyOps sampleReq sampleCacheFull sampleOps =
      [(BodyOp.json "j" {}, false), (BodyOp.form "f" {}, false),
        (BodyOp.json "x" {}, false)] ∧
    (∀ op b, (op, b) ∈ runBodyOps sampleReq sampleCacheFull sampleOps →
      op.isJson = true → b = false) ∧
    parse_form sampleCacheFull sampleReq "f" {} =
      ⟨.ok (get_value [("f", "5")] "f" {}), sampleCacheFull, false⟩ :=
  ⟨rfl, rfl, rfl,
    ((body_stream_consumed_once sampleReq sampleCacheFull sampleOps).1
      [("j", "6")] rfl).1,
    ((body_stream_consumed_once sampleReq sampleCacheFull sampleOps).2
      [("f", "5")] rfl).2 "f" {}⟩

/-- Counterexample to C2 as frozen: a body that decodes to the JSON `null` is
read successfully — no error raised, the missing sentinel returned, the
decoded `None` stored under the `"json"` cache key, the coroutine awaited —
yet a later JSON extraction run from exactly the cache that successful read
produced awaits the coroutine again, because the `is None` miss test cannot
tell the cached `None` from an absent key: both operations of the two-element
run await. -/
theorem body_stream_consumed_once_counterexample :
    (parse_json Cache.empty sampleReqNullBody "a" {}).result = .ok none ∧
    (parse_json Cache.empty sampleReqNullBody "a" {}).awaited = true ∧
    (parse_json Cache.empty sampleReqNullBody "a" {}).cache =
      ⟨none, some JsonData.null⟩ ∧
    (parse_json ⟨none, some JsonData.null⟩ sampleReqNullBody "a" {}).awaited =
      true ∧
    runBodyOps sampleReqNullBody Cache.empty
      [BodyOp.json "a" {}, BodyOp.json "a" {}] =
      [(BodyOp.json "a" {}, true), (BodyOp.json "a" {}, true)] :=
  ⟨rfl, rfl, rfl, rfl, rfl⟩

/-- Helper: the registration step skips objects that are not HTTP exception
classes and classes without a declared status code, leaving the table as it
was. -/
theorem find_exceptions_step_skip (issub : ExcClass → ExcClass → Bool)
    (m : Nat → Option ExcClass) (obj : ExcClass)
    (h : obj.isHTTPException = false ∨ obj.status_code = none) :
    find_exceptions_step issub m obj = m := by
  rcases h with h | h
  · simp [find_exceptions_step, h]
  · by_cases hh : obj.isHTTPException = true <;>
      simp [find_exceptions_step, hh, h]

/-- Helper: the registration step leaves the table unchanged at every status
code other than the processed class's own. -/
theorem find_exceptions_step_other_key (issub : ExcClass → ExcClass → Bool)
    (m : Nat → Option ExcClass) (obj : ExcClass) (code : Nat)
    (h : obj.status_code ≠ some code) :
    find_exceptions_step issub m obj code = m code := by
  by_cases hh : obj.isHTTPException = true
  · cases hsc : obj.status_code with
    | none => simp [find_exceptions_step, hh, hsc]
    | some sc =>
        have hcs : code ≠ sc := fun hq => h (hq ▸ hsc)
        cases hmsc : m sc with
        | none => simp [find_exceptions_step, hh, hsc, hmsc, hcs]
        | some old =>
            by_cases hs : issub obj old = true <;>
              simp [find_exceptions_step, hh, hsc, hmsc, hs, hcs]
  · simp [find_exceptions_step, hh]

/-- Helper: processing an eligible class either keeps the registered class it
is a subclass of, or ends with itself registered under its status code. -/
theorem find_exceptions_step_eligible (issub : ExcClass → ExcClass → Bool)
    (m : Nat → Option ExcClass) (obj : ExcClass) (code : Nat)
    (hh : obj.isHTTPException = true) (hc : obj.status_code = some code) :
    (∃ old, m code = some old ∧ issub obj old = true ∧
      find_exceptions_step issub m obj code = some old) ∨
    find_exceptions_step issub m obj code = some obj := by
  cases hmsc : m code with
  | none => right; simp [find_exceptions_step, hh, hc, hmsc]
  | some old =>
      by_cases hs : issub obj old = true
      · exact Or.inl ⟨old, rfl, hs,
          by simp [find_exceptions_step, hh, hc, hmsc, hs]⟩
      · right; simp [find_exceptions_step, hh, hc, hmsc, hs]

/-- Helper: one registration step never erases an existing table entry's
presence. -/
theorem find_exceptions_step_isSome (issub : ExcClass → ExcClass → Bool)
    (m : Nat → Option ExcClass) (obj : ExcClass) (code : Nat)
    (h : (m code).isSome = true) :
    ((find_exceptions_step issub m obj) code).isSome = true := by
  by_cases hh : obj.isHTTPException = true
  · by_cases hsc : obj.status_code = some code
    · rcases find_exceptions_step_eligible issub m obj code hh hsc with
        ⟨old, _, _, heq⟩ | heq <;> simp [heq]
    · rw [find_exceptions_step_other_key issub m obj code hsc]; exact h
  · rw [find_exceptions_step_skip issub m obj
      (Or.inl (Bool.eq_false_iff.mpr hh))]
    exact h

/-- Helper: folding the registration step never erases an existing table
entry's presence. -/
theorem find_exceptions_fold_isSome (issub : ExcClass → ExcClass → Bool)
    (l : List ExcClass) :
    ∀ (m : Nat → Option ExcClass) (code : Nat), (m code).isSome = true →
      ((l.foldl (find_exceptions_step issub) m) code).isSome = true := by
  induction l with
  | nil => intro m code h; exact h
  | cons a l ih =>
      intro m code h
      exact ih _ code (find_exceptions_step_isSome issub m a code h)

/-- Helper: processing an HTTP exception class with a declared status code
leaves the table populated at that code. -/
theorem find_exceptions_step_registers (issub : ExcClass → ExcClass → Bool)
    (m : Nat → Option ExcClass) (obj : ExcClass) (code : Nat)
    (hh : obj.isHTTPException = true) (hc : obj.status_code = some code) :
    ((find_exceptions_step issub m obj) code).isSome = true := by
  rcases find_exceptions_step_eligible issub m obj code hh hc with
    ⟨old, _, _, heq⟩ | heq <;> simp [heq]

/-- Helper: folding the registration step over a list populates the table at
the status code of every eligible class of the list. -/
theorem find_exceptions_fold_covers (issub : ExcClass → ExcClass → Bool)
    (l : List ExcClass) :
    ∀ (m : Nat → Option ExcClass) (obj : ExcClass) (code : Nat),
      obj ∈ l → obj.isHTTPException = true → obj.status_code = some code →
      ((l.foldl (find_exceptions_step issub) m) code).isSome = true := by
  induction l with
  | nil => intro m obj code hmem _ _; cases hmem
  | cons a l ih =>
      intro m obj code hmem hh hc
      rcases List.mem_cons.mp hmem with rfl | hmem
      · exact find_exceptions_fold_isSome issub l _ code
          (find_exceptions_step_registers issub m obj code hh hc)
      · exact ih _ obj code hmem hh hc

/-- Claim C5: after the startup registration step, every exported object that
is an HTTP exception class with a non-`None` status code has an entry in the
status-code lookup table at that code. -/
theorem find_exceptions_covers_framework_codes
    (issub : ExcClass → ExcClass → Bool) (exported : List ExcClass)
    (obj : ExcClass) (code : Nat) (hmem : obj ∈ exported)
    (hh : obj.isHTTPException = true) (hc : obj.status_code = some code) :
    ((find_exceptions issub exported) code).isSome = true :=
  find_exceptions_fold_covers issub exported exception_map_init obj code
    hmem hh hc

/-- Witness for C5: a concrete exported class with status 404 ends up in the
table. -/
theorem find_exceptions_covers_framework_codes_witness :
    sampleHTTPNotFound ∈ [sampleHTTPNotFound] ∧
    sampleHTTPNotFound.isHTTPException = true ∧
    sampleHTTPNotFound.status_code = some 404 ∧
    ((find_exceptions (fun _ _ => false) [sampleHTTPNotFound]) 404).isSome =
      true :=
  ⟨List.mem_singleton.mpr rfl, rfl, rfl,
    find_exceptions_covers_framework_codes (fun _ _ => false)
      [sampleHTTPNotFound] sampleHTTPNotFound 404
      (List.mem_singleton.mpr rfl) rfl rfl⟩

/-- Helper: the initial table is consistent. -/
theorem exception_map_init_consistent :
    table_consistent exception_map_init := by
  intro code obj h
  unfold exception_map_init at h
  split at h
  next hc =>
    cases h
    exact ⟨rfl, by rw [hc]; rfl⟩
  next => simp at h

/-- Helper: one registration step preserves table consistency. -/
theorem find_exceptions_step_consistent (issub : ExcClass → ExcClass → Bool)
    (m : Nat → Option ExcClass) (obj : ExcClass)
    (hm : table_consistent m) :
    table_consistent (find_exceptions_step issub m obj) := by
  intro code cls h
  by_cases hh : obj.isHTTPException = true
  · by_cases hsc : obj.status_code = some code
    · rcases find_exceptions_step_eligible issub m obj code hh hsc with
        ⟨old, hold, _, heq⟩ | heq
      · rw [heq] at h
        cases h
        exact hm code cls hold
      · rw [heq] at h
        cases h
        exact ⟨hh, hsc⟩
    · rw [find_exceptions_step_other_key issub m obj code hsc] at h
      exact hm code cls h
  · rw [find_exceptions_step_skip issub m obj
      (Or.inl (Bool.eq_false_iff.mpr hh))] at h
    exact hm code cls h

/-- Helper: folding the registration step preserves table consistency. -/
theorem find_exceptions_fold_consistent (issub : ExcClass → ExcClass → Bool)
    (l : List ExcClass) :
    ∀ m : Nat → Option ExcClass, table_consistent m →
      table_consistent (l.foldl (find_exceptions_step issub) m) := by
  induction l with
  | nil => intro m hm; exact hm
  | cons a l ih =>
      intro m hm
      exact ih _ (find_exceptions_step_consistent issub m a hm)

/-- Claim C10: after the startup registration step every table entry's value
is an HTTP exception class that declares exactly the status code it is keyed
under; and a class that is a subclass of the class already registered for its
status code never replaces the existing entry when the registration step
processes it. -/
theorem exception_map_consistent_and_keeps_superclass
    (issub : ExcClass → ExcClass → Bool) (exported : List ExcClass) :
    (∀ code obj, find_exceptions issub exported code = some obj →
      obj.isHTTPException = true ∧ obj.status_code = some code) ∧
    (∀ (m : Nat → Option ExcClass) (obj old : ExcClass) (code : Nat),
      m code = some old → issub obj old = true →
      find_exceptions_step issub m obj code = some old) := by
  constructor
  · exact find_exceptions_fold_consistent issub exported exception_map_init
      exception_map_init_consistent
  · intro m obj old code hm hs
    by_cases hh : obj.isHTTPException = true
    · by_cases hsc : obj.status_code = some code
      · simp [find_exceptions_step, hh, hsc, hm, hs]
      · rw [find_exceptions_step_other_key issub m obj code hsc]
        exact hm
    · rw [find_exceptions_step_skip issub m obj
        (Or.inl (Bool.eq_false_iff.mpr hh))]
      exact hm

/-- Witness for C10: the table built from one concrete class holds an HTTP
exception class declaring the code it is keyed under, and a subclass of the
initially registered 422 class does not replace it. -/
theorem exception_map_consistent_and_keeps_superclass_witness :
    find_exceptions (fun _ _ => false) [sampleHTTPNotFound] 404 =
      some sampleHTTPNotFound ∧
    sampleHTTPNotFound.isHTTPException = true ∧
    sampleHTTPNotFound.status_code = some 404 ∧
    exception_map_init 422 = some HTTPUnprocessableEntity ∧
    find_exceptions_step (fun _ _ => true) exception_map_init
      sampleSubclass422 422 = some HTTPUnprocessableEntity :=
  ⟨by decide,
    ((exception_map_consistent_and_keeps_superclass (fun _ _ => false)
      [sampleHTTPNotFound]).1 404 sampleHTTPNotFound (by decide)).1,
    ((exception_map_consistent_and_keeps_superclass (fun _ _ => false)
      [sampleHTTPNotFound]).1 404 sampleHTTPNotFound (by decide)).2,
    rfl,
    (exception_map_consistent_and_keeps_superclass (fun _ _ => true) []).2
      exception_map_init sampleSubclass422 HTTPUnprocessableEntity 422
      rfl rfl⟩

/-- Helper: the argument scan skips any prefix of arguments that are neither
requests nor views. -/
theorem scan_view_args_skips_other (pre : List HandlerArg)
    (hpre : ∀ x ∈ pre, x = HandlerArg.other) (l : List HandlerArg) :
    scan_view_args (pre ++ l) = scan_view_args l := by
  induction pre with
  | nil => rfl
  | cons a pre ih =>
      have ha : a = HandlerArg.other := hpre a (List.mem_cons_self a pre)
      subst ha
      show scan_view_args (pre ++ l) = scan_view_args l
      exact ih fun x hx => hpre x (List.mem_cons_of_mem _ hx)

/-- Claim C9: `get_request_from_view_args` scans the positional arguments in
order past any non-request, non-view prefix; it returns the first `Request`
argument, or the `request` attribute of the first `View` argument, whichever
comes first; when the first `View` found carries a non-`Request` attribute,
or no request or view occurs at all, the final assertion fails instead of
returning `None`. -/
theorem get_request_scans_args_in_order
    (pre rest : List HandlerArg)
    (hpre : ∀ x ∈ pre, x = HandlerArg.other) :
    (∀ r, get_request_from_view_args (pre ++ HandlerArg.request r :: rest) =
      .found r) ∧
    (∀ r, get_request_from_view_args
        (pre ++ HandlerArg.view (some r) :: rest) = .found r) ∧
    get_request_from_view_args (pre ++ HandlerArg.view none :: rest) =
      .raiseAssertionError "Request argument not found for handler" ∧
    get_request_from_view_args pre =
      .raiseAssertionError "Request argument not found for handler" := by
  have hnil : scan_view_args pre = none := by
    have := scan_view_args_skips_other pre hpre []
    simpa using this
  refine ⟨fun r => ?_, fun r => ?_, ?_, ?_⟩
  · unfold get_request_from_view_args
    rw [scan_view_args_skips_other pre hpre]
    rfl
  · unfold get_request_from_view_args
    rw [scan_view_args_skips_other pre hpre]
    rfl
  · unfold get_request_from_view_args
    rw [scan_view_args_skips_other pre hpre]
    rfl
  · unfold get_request_from_view_args
    rw [hnil]

/-- Witness for C9 at concrete argument lists. -/
theorem get_request_scans_args_in_order_witness :
    (∀ x ∈ [HandlerArg.other], x = HandlerArg.other) ∧
    get_request_from_view_args
      [HandlerArg.other, HandlerArg.request sampleReq2] = .found sampleReq2 ∧
    get_request_from_view_args
      [HandlerArg.other, HandlerArg.view (some sampleReq2)] =
        .found sampleReq2 ∧
    get_request_from_view_args [HandlerArg.other, HandlerArg.view none] =
      .raiseAssertionError "Request argument not found for handler" ∧
    get_request_from_view_args [HandlerArg.other] =
      .raiseAssertionError "Request argument not found for handler" := by
  have hpre : ∀ x ∈ [HandlerArg.other], x = HandlerArg.other := by
    intro x hx
    simpa using hx
  refine ⟨hpre, ?_, ?_, ?_, ?_⟩
  · exact (get_request_scans_args_in_order [HandlerArg.other] [] hpre).1
      sampleReq2
  · exact (get_request_scans_args_in_order [HandlerArg.other] [] hpre).2.1
      sampleReq2
  · exact (get_request_scans_args_in_order [HandlerArg.other] [] hpre).2.2.1
  · exact (get_request_scans_args_in_order [HandlerArg.other] [] hpre).2.2.2

end Aiohttpparser
